import Mathlib

/-!
# Verification of the MultiAgentFinanceApp document ingestion & retrieval pipeline

Shallow embedding of the core of `RAGLocal/rag_system.py` and
`RAGLocal/rag_pipeline.py`: deterministic chunking with overlap, content-hash
deduplication, the document-embedding loop with its per-chunk exception
handling, the scanned/native PDF classifiers, the text-extraction fallback
chain, vector search with optional equality filters, and the HyDE
query-expansion cache.

External collaborators (PyMuPDF page extraction, the SentenceTransformer
embedding model, the SHA-256 / MD5 hash functions, the pgvector
cosine-distance operator, the OpenAI completion client) are modelled as
explicit function parameters; exceptions raised by Python code are modelled
with `Option` / `Except` or with explicit boolean failure flags at the points
where the source can raise.

Python string primitives (`str.split()`, `str.strip()`, `str.join`) are
modelled directly on the character list of a `String` with structurally
recursive functions, mirroring Python's semantics (split on whitespace runs
discarding empty pieces; strip whitespace from both ends).
-/

namespace RAG

/-! ## Python string primitives -/

/-- Python `s.strip()`: remove leading and trailing whitespace. -/
def pyStrip (s : String) : String :=
  ⟨((s.data.dropWhile Char.isWhitespace).reverse.dropWhile Char.isWhitespace).reverse⟩

/-- Python `text.split()` with no separator: split on whitespace runs; no
empty pieces are produced. -/
def splitWords (text : String) : List String :=
  ((text.data.splitOnP fun c => c.isWhitespace).map String.mk).filter fun w => w ≠ ""

/-- Python `' '.join(ws)`. -/
def joinWords (ws : List String) : String :=
  ⟨[' '].intercalate (ws.map String.data)⟩

/-- Word count of a string, Python `len(s.split())`. -/
def wordCount (s : String) : Nat := (splitWords s).length

/-! ## Chunker (`LocalPGVectorRAG._chunk_text`) -/

/-- Configuration for document chunking; `ChunkConfig` in `rag_system.py`
(chunk_size = 500 words, overlap_ratio = 0.2, min_chunk_size = 50 words).
`LocalPGVectorRAG.__init__` always installs `ChunkConfig()` with these
defaults. -/
structure ChunkConfig where
  chunk_size : Nat := 500
  overlap_ratio : ℚ := 0.2
  min_chunk_size : Nat := 50

/-- The default configuration, as constructed by `ChunkConfig()`. -/
def defaultChunkConfig : ChunkConfig := {}

/-- `overlap_size = int(chunk_size * overlap_ratio)` in `_chunk_text`
(Python `int()` truncates; for the non-negative values in use this is the
floor). -/
def overlapSize (cfg : ChunkConfig) : Nat :=
  (⌊(cfg.chunk_size : ℚ) * cfg.overlap_ratio⌋).toNat

/-- The word-window loop of `LocalPGVectorRAG._chunk_text`
(`for i in range(0, len(words), chunk_size - overlap_size)`), producing the
word list of each emitted chunk in order.  A window is emitted only if it has
at least `minSize` words (`len(chunk_words) >= min_chunk_size`); after the
emit check the loop breaks once `i + chunk_size >= len(words)`.  `fuel`
bounds the recursion; called with `words.length + 1` it never runs out for
any positive step (a step of zero would make Python's `range` raise
`ValueError`; the deployed configuration has step 400). -/
def chunkWindows (chunkSize minSize step : Nat) (words : List String) :
    Nat → Nat → List (List String)
  | 0, _ => []
  | fuel + 1, i =>
    if i < words.length then
      (if minSize ≤ ((words.drop i).take chunkSize).length
        then [(words.drop i).take chunkSize] else []) ++
      (if words.length ≤ i + chunkSize then []
        else chunkWindows chunkSize minSize step words fuel (i + step))
    else []

/-- `LocalPGVectorRAG._chunk_text`: all-whitespace text yields no chunks
(with a logged warning); a text of at most `chunk_size` words is returned
whole as a single chunk; otherwise the word-window loop emits windows joined
by single spaces (`' '.join(chunk_words)`). -/
def chunk_text (cfg : ChunkConfig) (text : String) : List String :=
  if pyStrip text = "" then []
  else if (splitWords text).length ≤ cfg.chunk_size then [text]
  else
    (chunkWindows cfg.chunk_size cfg.min_chunk_size
        (cfg.chunk_size - overlapSize cfg) (splitWords text)
        ((splitWords text).length + 1) 0).map joinWords

/-! ## The vector store and the embedding loop (`LocalPGVectorRAG`)

The `financial_documents` table is a list of rows; the embedding model is a
parameter `embedFn` and SHA-256 (`_generate_content_hash`) a parameter
`hashFn`.  The embedding type `E` is abstract (a fixed-dimension vector in
the source). -/

/-- `DocumentMetadata` in `rag_system.py`. -/
structure DocumentMetadata where
  pdf_name : String
  pdf_link : String
  year : Int
  doc_type : String
deriving DecidableEq

/-- One row of the `financial_documents` table (columns of the insert in
`embed_document`; `id` and `created_at` are database-generated and not
observable by any modelled operation). -/
structure Row (E : Type) where
  content : String
  embedding : E
  pdf_name : String
  pdf_link : String
  year : Int
  doc_type : String
  chunk_index : Nat
  content_hash : String
  ocr_processed : Bool
deriving DecidableEq

/-- The dedup gate: `SELECT id FROM financial_documents WHERE content_hash
= %s` followed by `fetchone()` — true iff some stored row has this
content hash. -/
def hashExists {E : Type} (store : List (Row E)) (h : String) : Bool :=
  store.any fun r => r.content_hash = h

/-- The per-chunk loop of `embed_document` (`for chunk_index, chunk in
enumerate(chunks)`), over the remaining `(index, chunk)` pairs, carrying the
table contents and `embedded_count`.  For each chunk: compute the content
hash, skip if a row with that hash exists, otherwise generate the embedding
and insert the row.  `insertFails i = true` models an exception raised while
processing chunk `i` (embedding or insert); the `except` handler inside the
loop logs and `continue`s, so a failing chunk is skipped and the loop goes
on. -/
def embed_chunks_loop {E : Type} (hashFn : String → String) (embedFn : String → E)
    (meta : DocumentMetadata) (ocrUsed : Bool) (insertFails : Nat → Bool) :
    List (Nat × String) → List (Row E) → Nat → List (Row E) × Nat
  | [], store, count => (store, count)
  | (i, chunk) :: rest, store, count =>
    if hashExists store (hashFn chunk) then
      embed_chunks_loop hashFn embedFn meta ocrUsed insertFails rest store count
    else if insertFails i then
      embed_chunks_loop hashFn embedFn meta ocrUsed insertFails rest store count
    else
      embed_chunks_loop hashFn embedFn meta ocrUsed insertFails rest
        (store ++ [⟨chunk, embedFn chunk, meta.pdf_name, meta.pdf_link, meta.year,
          meta.doc_type, i, hashFn chunk, ocrUsed⟩])
        (count + 1)

/-- Errors of `_extract_text_from_pdf` that propagate to the caller:
a missing file (`FileNotFoundError`) or a failure opening/reading the
document (the outer `except` re-raises). -/
inductive ExtractErr where
  | fileNotFound : ExtractErr
  | openFailed : ExtractErr
deriving DecidableEq

/-- `LocalPGVectorRAG.embed_document`: extract text (the parameter
`extraction` is the result of `_extract_text_from_pdf`; an error there is
caught by the outer handler, which rolls back — no insert has happened yet —
and returns `False`), chunk it with the deployed default `ChunkConfig`, run
the per-chunk loop, commit, and return `embedded_count > 0`.  The result is
`(table contents, embedded_count, returned boolean)`. -/
def embed_document {E : Type} (hashFn : String → String) (embedFn : String → E)
    (insertFails : Nat → Bool) (extraction : Except ExtractErr (String × Bool))
    (meta : DocumentMetadata) (store : List (Row E)) :
    List (Row E) × Nat × Bool :=
  match extraction with
  | .error _ => (store, 0, false)
  | .ok (text, ocrUsed) =>
    if text = "" then (store, 0, false)
    else
      match chunk_text defaultChunkConfig text with
      | [] => (store, 0, false)
      | c :: cs =>
        let r := embed_chunks_loop hashFn embedFn meta ocrUsed insertFails
          ((c :: cs).enum) store 0
        (r.1, r.2, decide (0 < r.2))

/-! ## The pipeline store (`EnhancedLocalPDFRAGPipeline.store_document_and_chunks`) -/

/-- One row of the `documents` table. -/
structure DocRow where
  id : Nat
  filename : String
  file_path : String
  file_size : Nat
  file_hash : String
deriving DecidableEq

/-- One row of the `document_chunks` table (`chunk_metadata` holds a JSON
blob with the chunk index, the total chunk count and a wall-clock timestamp;
the timestamp is outside the model, the other two fields are recorded). -/
structure ChunkRow (E : Type) where
  document_id : Nat
  chunk_index : Nat
  content : String
  cleaned_content : String
  total_chunks : Nat
  embedding : E
  word_count : Nat
  char_count : Nat
deriving DecidableEq

/-- State of the pipeline schema: the `documents` and `document_chunks`
tables. -/
structure PipelineState (E : Type) where
  documents : List DocRow
  document_chunks : List (ChunkRow E)
deriving DecidableEq

/-- `store_document_and_chunks`: on a chunks/embeddings length mismatch, log
and return `None` (nothing stored); otherwise insert the document row
(`RETURNING id`, modelled as the next serial id), then `executemany` all
chunk rows, and commit.  Any exception (document insert or any chunk-row
insert, modelled by the failure flags) is caught, the transaction rolled
back — the state is left unchanged — and `None` returned. -/
def store_document_and_chunks {E : Type} (pdf_path filename : String)
    (file_size : Nat) (file_hash : String) (chunks : List String)
    (embeddings : List E) (docInsertFails : Bool) (chunkInsertFails : Nat → Bool)
    (st : PipelineState E) : PipelineState E × Option Nat :=
  if chunks.length ≠ embeddings.length then (st, none)
  else if docInsertFails then (st, none)
  else if (List.range chunks.length).any chunkInsertFails then (st, none)
  else
    let docId := st.documents.length + 1
    ({ documents := st.documents ++ [⟨docId, filename, pdf_path, file_size, file_hash⟩],
       document_chunks := st.document_chunks ++
         ((chunks.zip embeddings).enum.map fun p =>
           ⟨docId, p.1, p.2.1, p.2.1, chunks.length, p.2.2,
             wordCount p.2.1, p.2.1.length⟩) },
     some docId)

/-! ## PDF classifiers -/

/-- A PDF page as observed through PyMuPDF: the extractable text
(`page.get_text()`) and the number of embedded images
(`len(page.get_images())`). -/
structure Page where
  text : String
  images : Nat
deriving DecidableEq

/-- A PDF document: its list of pages.  `none` at a use site models a
document that cannot be opened/analyzed (PyMuPDF raising). -/
structure Pdf where
  pages : List Page
deriving DecidableEq

/-- The pages inspected by both classifiers: the first `min(3, len(doc))`
pages. -/
def inspectedPages (d : Pdf) : List Page := d.pages.take (min 3 d.pages.length)

/-- `text_chars` in `_is_scanned_pdf` / `total_chars` in `detect_pdf_type`:
the sum over the inspected pages of `len(page.get_text().strip())`. -/
def inspectedTextChars (d : Pdf) : Nat :=
  ((inspectedPages d).map fun p => (pyStrip p.text).length).sum

/-- `image_count` in `_is_scanned_pdf`: the sum over the inspected pages of
`len(page.get_images())`. -/
def inspectedImages (d : Pdf) : Nat :=
  ((inspectedPages d).map fun p => p.images).sum

/-- `OCRProcessor._is_scanned_pdf`: inspect the first `min(3, len(doc))`
pages, sum stripped-text character counts and image counts, and report
scanned iff the average characters per page is below 100 and the average
image count per page is positive.  Any exception while analyzing — including
the `ZeroDivisionError` on a zero-page document — is caught and the function
returns `True` (assume scanned). -/
def is_scanned_pdf (pdf : Option Pdf) : Bool :=
  match pdf with
  | none => true
  | some d =>
    if d.pages.length = 0 then true
    else
      decide ((inspectedTextChars d : ℚ) / ((min 3 d.pages.length : Nat) : ℚ) < 100 ∧
        (0 : ℚ) < (inspectedImages d : ℚ) / ((min 3 d.pages.length : Nat) : ℚ))

/-- `EnhancedLocalPDFRAGPipeline.detect_pdf_type`: sum the stripped-text
character counts of the first `min(3, len(doc))` pages; the average is
`total_chars / 3` when the total is nonzero and `0` otherwise (Python
`total_chars / 3 if total_chars else 0`, dividing by the constant 3 whatever
the page count); report scanned iff the average is below 100.  Image counts
are not consulted, and any exception yields `"native"`. -/
def detect_pdf_type (pdf : Option Pdf) : String :=
  match pdf with
  | none => "native"
  | some d =>
    if (if inspectedTextChars d = 0 then (0 : ℚ)
        else (inspectedTextChars d : ℚ) / 3) < 100
    then "scanned" else "native"

/-! ## Text extraction (`LocalPGVectorRAG._extract_text_from_pdf`) -/

/-- `_extract_text_from_pdf`: a missing file raises `FileNotFoundError`
(re-raised by the outer handler); otherwise open the document (`none`
models `fitz.open` raising, also re-raised), concatenate
`page.get_text() + "\n"` over all pages, and:
if the stripped text is nonempty and longer than 100 characters return it
with `ocr_used = False`; otherwise, if `_is_scanned_pdf` reports scanned, try
OCR (`ocrResult` is the text from `extract_text_with_ocr`, `none` modelling
an OCR exception, which is caught): a nonempty stripped OCR text is returned
with `ocr_used = True`, and in every other case the stripped native text
(possibly empty) is returned with `ocr_used = False`.

`nativeText` is the concatenation loop `text += page.get_text() + "\n"`. -/
def nativeText (d : Pdf) : String :=
  d.pages.foldl (fun acc p => acc ++ p.text ++ "\n") ""

def extract_text_from_pdf (pathExists : Bool) (pdf : Option Pdf)
    (ocrResult : Option String) : Except ExtractErr (String × Bool) :=
  if pathExists = false then .error .fileNotFound
  else match pdf with
    | none => .error .openFailed
    | some d =>
      if pyStrip (nativeText d) ≠ "" ∧ 100 < (pyStrip (nativeText d)).length then
        .ok (pyStrip (nativeText d), false)
      else if is_scanned_pdf (some d) then
        match ocrResult with
        | some o =>
          if pyStrip o ≠ "" then .ok (pyStrip o, true)
          else .ok (pyStrip (nativeText d), false)
        | none => .ok (pyStrip (nativeText d), false)
      else .ok (pyStrip (nativeText d), false)

/-! ## Search (`LocalPGVectorRAG.search_documents`) -/

/-- One element of the list returned by `search_documents` (the dict built
from each fetched row, including the computed similarity). -/
structure SearchResult where
  content : String
  pdf_name : String
  pdf_link : String
  year : Int
  doc_type : String
  chunk_index : Nat
  ocr_processed : Bool
  similarity : ℚ
deriving DecidableEq

/-- The WHERE clause built by `search_documents`: a `year = %s` condition is
appended only when `if year_filter:` is true (so neither for `None` nor for
the falsy `0`), and a `doc_type = %s` condition only when `if
doc_type_filter:` is true (so neither for `None` nor for the falsy empty
string). -/
def rowPassesFilters {E : Type} (yearFilter : Option Int)
    (docTypeFilter : Option String) (r : Row E) : Bool :=
  (match yearFilter with
   | some y => if y ≠ 0 then decide (r.year = y) else true
   | none => true) &&
  (match docTypeFilter with
   | some s => if s ≠ "" then decide (r.doc_type = s) else true
   | none => true)

/-- `search_documents`: the whole body runs inside `try/except`; any
exception (`available = false` models the store being unreachable — and any
other failure while executing) is caught, logged, and the function returns
`[]`.  Otherwise the SQL query computes `1 - (embedding <=> %s::vector)` as
the similarity of every row (the pgvector cosine-distance of a stored
embedding to the query vector is the parameter `dist`; HyDE expansion and
query embedding only determine that vector and are absorbed into `dist`),
applies the optional equality filters, orders by similarity descending and
truncates to `limit`. -/
def search_documents {E : Type} (available : Bool) (dist : E → ℚ)
    (yearFilter : Option Int) (docTypeFilter : Option String) (limit : Nat)
    (rows : List (Row E)) : List SearchResult :=
  if available = false then []
  else
    (List.insertionSort (fun a b => b.similarity ≤ a.similarity)
      ((rows.filter (rowPassesFilters yearFilter docTypeFilter)).map fun r =>
        ({ content := r.content, pdf_name := r.pdf_name, pdf_link := r.pdf_link,
           year := r.year, doc_type := r.doc_type, chunk_index := r.chunk_index,
           ocr_processed := r.ocr_processed,
           similarity := 1 - dist r.embedding } : SearchResult))).take limit

/-! ## HyDE query expansion (`HyDEQueryTranslator` in `rag_pipeline.py`) -/

/-- `HyDEConfig` in `rag_pipeline.py` (fields used by
`generate_hypothetical_document`; `max_tokens` and `temperature` only shape
the provider call). -/
structure HyDEConfig where
  enabled : Bool := true
  backend : String := "openai"
  model_name : String := "gpt-3.5-turbo"
  max_tokens : Nat := 300
  fallback_to_original : Bool := true
  cache_responses : Bool := true

/-- `HyDEQueryTranslator.generate_hypothetical_document`.  The in-memory
cache dict is an association list (later entries shadow earlier ones, like
dict assignment); `md5hex` models `hashlib.md5(...).hexdigest()` over the
f-string `f"{query}_{model_name}"`; `provider` models the OpenAI chat
completion call, `none` being a raised exception.  Returns the produced text
(`none` when the exception is re-raised because `fallback_to_original` is
off), the updated cache, and how many provider invocations were made (0 or
1). -/
def generate_hypothetical_document (cfg : HyDEConfig) (hasOpenai : Bool)
    (md5hex : String → String) (provider : String → Option String)
    (cache : List (String × String)) (query : String) :
    Option String × List (String × String) × Nat :=
  if cfg.enabled = false ∨ cfg.backend ≠ "openai" ∨ hasOpenai = false then
    (some query, cache, 0)
  else
    match (if cfg.cache_responses then cache.lookup (md5hex (query ++ "_" ++ cfg.model_name)) else none) with
    | some t => (some t, cache, 0)
    | none =>
      match provider query with
      | some raw =>
        (some (pyStrip raw),
          (if cfg.cache_responses
            then (md5hex (query ++ "_" ++ cfg.model_name), pyStrip raw) :: cache
            else cache), 1)
      | none =>
        (if cfg.fallback_to_original then some query else none, cache, 1)

/-! ## Concrete sample inputs used by counterexamples and witnesses -/

/-- 1200 whitespace-free words.  (The word-window arithmetic depends only on
the number of words, never on their content — the general theorem
`chunk_text_word_counts_1200` holds for every text of exactly 1200 words,
in particular for 1200 distinct words.) -/
def words1200 : List String := List.replicate 1200 "w"

/-- A text of exactly 1200 words (the spec's end-to-end chunking example). -/
def text1200 : String := joinWords words1200

/-- Sample document metadata. -/
def sampleMeta : DocumentMetadata :=
  { pdf_name := "report.pdf", pdf_link := "http://example.com/report.pdf",
    year := 2022, doc_type := "Annual report" }

/-- A sample stored row (embeddings modelled by `Unit`). -/
def sampleRow : Row Unit :=
  { content := "cash flow", embedding := (), pdf_name := "report.pdf",
    pdf_link := "http://example.com/report.pdf", year := 2022,
    doc_type := "Annual report", chunk_index := 0,
    content_hash := "cash flow", ocr_processed := false }

/-- A second stored row with a different year and document type. -/
def sampleRow2023 : Row Unit :=
  { content := "guidance", embedding := (), pdf_name := "call.pdf",
    pdf_link := "http://example.com/call.pdf", year := 2023,
    doc_type := "Transcript", chunk_index := 1,
    content_hash := "guidance", ocr_processed := true }

/-- A one-page PDF with no extractable text and no embedded images. -/
def blankPagePdf : Pdf := { pages := [{ text := "", images := 0 }] }

/-- A one-page PDF with no extractable text and one embedded image. -/
def scannedLikePdf : Pdf := { pages := [{ text := "", images := 1 }] }

/-! ## Theorems -/

theorem overlapSize_default : overlapSize defaultChunkConfig = 100 := by
  have : ((500 : ℚ) * 0.2) = 100 := by norm_num
  simp [overlapSize, defaultChunkConfig, this]

@[simp] theorem default_chunk_size : defaultChunkConfig.chunk_size = 500 := rfl

@[simp] theorem default_min_chunk_size : defaultChunkConfig.min_chunk_size = 50 := rfl

/-! ## Split / join round-trip lemmas -/

theorem splitOnP_congr {α : Type} {p q : α → Bool} :
    ∀ l : List α, (∀ c ∈ l, p c = q c) → l.splitOnP p = l.splitOnP q
  | [] => fun _ => by simp [List.splitOnP_nil]
  | hd :: tl => fun h => by
    rw [List.splitOnP_cons, List.splitOnP_cons, h hd (List.mem_cons_self hd tl),
      splitOnP_congr tl (fun c hc => h c (List.mem_cons_of_mem _ hc))]

theorem eq_false_of_mem_splitOnP {α : Type} {p : α → Bool} :
    ∀ {l piece : List α}, piece ∈ l.splitOnP p → ∀ x ∈ piece, p x = false
  | [], piece, hmem => by
    rw [List.splitOnP_nil] at hmem
    simp only [List.mem_singleton] at hmem
    subst hmem
    intro x hx
    exact absurd hx (List.not_mem_nil x)
  | hd :: tl, piece, hmem => by
    rw [List.splitOnP_cons] at hmem
    by_cases hp : p hd
    · rw [if_pos hp] at hmem
      rcases List.mem_cons.1 hmem with rfl | hmem
      · intro x hx
        exact absurd hx (List.not_mem_nil x)
      · exact eq_false_of_mem_splitOnP hmem
    · rw [if_neg hp] at hmem
      cases htl : tl.splitOnP p with
      | nil => exact absurd htl (List.splitOnP_ne_nil p tl)
      | cons h' t' =>
        rw [htl, List.modifyHead_cons] at hmem
        rcases List.mem_cons.1 hmem with rfl | hmem
        · intro x hx
          rcases List.mem_cons.1 hx with rfl | hx
          · exact Bool.eq_false_iff.2 hp
          · exact eq_false_of_mem_splitOnP (htl ▸ List.mem_cons_self h' t') x hx
        · exact eq_false_of_mem_splitOnP (htl ▸ List.mem_cons_of_mem h' hmem)

theorem mem_intersperse {α : Type} {sep c : α} :
    ∀ {l : List α}, c ∈ l.intersperse sep → c ∈ l ∨ c = sep
  | [], h => by simp at h
  | [x], h => by simpa using Or.inl (by simpa using h)
  | x :: y :: zs, h => by
    rw [List.intersperse_cons₂] at h
    rcases List.mem_cons.1 h with rfl | h
    · exact Or.inl (List.mem_cons_self _ _)
    · rcases List.mem_cons.1 h with rfl | h
      · exact Or.inr rfl
      · rcases mem_intersperse h with hc | hc
        · exact Or.inl (List.mem_cons_of_mem _ hc)
        · exact Or.inr hc

theorem mem_intercalate_single {α : Type} {x c : α} {ls : List (List α)}
    (h : c ∈ [x].intercalate ls) : c = x ∨ ∃ l ∈ ls, c ∈ l := by
  rw [List.intercalate, List.mem_flatten] at h
  obtain ⟨l, hl, hcl⟩ := h
  rcases mem_intersperse hl with hmem | rfl
  · exact Or.inr ⟨l, hmem, hcl⟩
  · exact Or.inl (by simpa using hcl)

/-- The words produced by Python `text.split()` are nonempty and contain no
whitespace characters. -/
theorem splitWords_words {s : String} :
    ∀ w ∈ splitWords s, w ≠ "" ∧ ∀ c ∈ w.data, c.isWhitespace = false := by
  intro w hw
  unfold splitWords at hw
  obtain ⟨hmem, hne⟩ := List.mem_filter.1 hw
  refine ⟨by simpa using hne, ?_⟩
  obtain ⟨piece, hpiece, rfl⟩ := List.mem_map.1 hmem
  exact eq_false_of_mem_splitOnP hpiece

/-- Splitting is a left inverse of joining with single spaces, for nonempty
lists of nonempty whitespace-free words. -/
theorem splitWords_joinWords {ws : List String} (hne : ws ≠ [])
    (hw : ∀ w ∈ ws, w ≠ "" ∧ ∀ c ∈ w.data, c.isWhitespace = false) :
    splitWords (joinWords ws) = ws := by
  unfold splitWords joinWords
  have hcongr :
      (([' '].intercalate (ws.map String.data)).splitOnP fun c => c.isWhitespace) =
        ([' '].intercalate (ws.map String.data)).splitOnP fun c => c == ' ' := by
    apply splitOnP_congr
    intro c hc
    rcases mem_intercalate_single hc with rfl | ⟨l, hl, hcl⟩
    · simp
    · obtain ⟨w, hwmem, rfl⟩ := List.mem_map.1 hl
      have hcw := (hw w hwmem).2 c hcl
      rw [hcw]
      symm
      rw [beq_eq_false_iff_ne]
      rintro rfl
      simp at hcw
  have hsplit :
      (([' '].intercalate (ws.map String.data)).splitOnP fun c => c == ' ') =
        ws.map String.data := by
    have hx : ∀ l ∈ ws.map String.data, ' ' ∉ l := by
      intro l hl hsp
      obtain ⟨w, hwmem, rfl⟩ := List.mem_map.1 hl
      have := (hw w hwmem).2 ' ' hsp
      simp at this
    have hls : ws.map String.data ≠ [] := by
      simpa using hne
    simpa [List.splitOn] using List.splitOn_intercalate (ws.map String.data) ' ' hx hls
  rw [show (String.mk ([' '].intercalate (ws.map String.data))).data =
        [' '].intercalate (ws.map String.data) from rfl,
    hcongr, hsplit, List.map_map]
  have hid : ws.map (String.mk ∘ String.data) = ws :=
    List.map_congr_left (fun w _ => rfl) |>.trans (List.map_id ws)
  rw [hid, List.filter_eq_self.2]
  intro w hwmem
  simpa using (hw w hwmem).1

/-- If the Python strip of a string is empty, every character is
whitespace. -/
theorem all_whitespace_of_pyStrip_eq_empty {s : String} (h : pyStrip s = "") :
    ∀ c ∈ s.data, c.isWhitespace = true := by
  unfold pyStrip at h
  have hdata : (((s.data.dropWhile Char.isWhitespace).reverse.dropWhile
      Char.isWhitespace)).reverse = [] := congrArg String.data h
  rw [List.reverse_eq_nil_iff, List.dropWhile_eq_nil_iff] at hdata
  have hdrop : ∀ c ∈ s.data.dropWhile Char.isWhitespace, c.isWhitespace = true := by
    intro c hc
    exact hdata c (List.mem_reverse.2 hc)
  intro c hc
  rw [← List.takeWhile_append_dropWhile Char.isWhitespace s.data] at hc
  rcases List.mem_append.1 hc with hc | hc
  · exact List.mem_takeWhile_imp hc
  · exact hdrop c hc

theorem splitOnP_all_eq_nil {α : Type} {p : α → Bool} :
    ∀ {l : List α}, (∀ x ∈ l, p x = true) → ∀ piece ∈ l.splitOnP p, piece = []
  | [], _, piece, hmem => by
    rw [List.splitOnP_nil] at hmem
    simpa using hmem
  | hd :: tl, h, piece, hmem => by
    rw [List.splitOnP_cons, if_pos (h hd (List.mem_cons_self hd tl))] at hmem
    rcases List.mem_cons.1 hmem with rfl | hmem
    · rfl
    · exact splitOnP_all_eq_nil (fun x hx => h x (List.mem_cons_of_mem _ hx)) piece hmem

/-- A string whose characters are all whitespace has no words. -/
theorem splitWords_eq_nil_of_all_whitespace {s : String}
    (h : ∀ c ∈ s.data, c.isWhitespace = true) : splitWords s = [] := by
  unfold splitWords
  rw [List.filter_eq_nil_iff]
  intro w hwmem
  obtain ⟨piece, hpiece, rfl⟩ := List.mem_map.1 hwmem
  have := splitOnP_all_eq_nil h piece hpiece
  subst this
  simp

/-- A text with at least one word does not strip to the empty string. -/
theorem pyStrip_ne_empty_of_splitWords_ne_nil {s : String}
    (h : splitWords s ≠ []) : pyStrip s ≠ "" := fun he =>
  h (splitWords_eq_nil_of_all_whitespace (all_whitespace_of_pyStrip_eq_empty he))

/-! ## Chunk-window lemmas -/


/-- Every window emitted by the word-window loop passes the
`min_chunk_size` guard and is a contiguous slice of the word list. -/
theorem mem_chunkWindows {cs ms st : Nat} {words : List String} :
    ∀ {fuel i : Nat} {w : List String}, w ∈ chunkWindows cs ms st words fuel i →
      ms ≤ w.length ∧ ∃ j, w = (words.drop j).take cs := by
  intro fuel
  induction fuel with
  | zero => intro i w hw; simp [chunkWindows] at hw
  | succ fuel ih =>
    intro i w hw
    rw [chunkWindows] at hw
    by_cases hi : i < words.length
    · rw [if_pos hi] at hw
      rcases List.mem_append.1 hw with hw | hw
      · by_cases hms : ms ≤ ((words.drop i).take cs).length
        · rw [if_pos hms] at hw
          rw [List.mem_singleton] at hw
          subst hw
          exact ⟨hms, i, rfl⟩
        · rw [if_neg hms] at hw
          exact absurd hw (List.not_mem_nil w)
      · by_cases hbrk : words.length ≤ i + cs
        · rw [if_pos hbrk] at hw
          exact absurd hw (List.not_mem_nil w)
        · rw [if_neg hbrk] at hw
          exact ih hw
    · rw [if_neg hi] at hw
      exact absurd hw (List.not_mem_nil w)

/-- Unfolding step of the loop when the window is emitted and the loop
continues. -/
theorem chunkWindows_cons {cs ms st : Nat} {words : List String} {fuel i : Nat}
    (hi : i < words.length) (hms : ms ≤ ((words.drop i).take cs).length)
    (hbrk : ¬ words.length ≤ i + cs) :
    chunkWindows cs ms st words (fuel + 1) i =
      (words.drop i).take cs :: chunkWindows cs ms st words fuel (i + st) := by
  rw [chunkWindows, if_pos hi, if_pos hms, if_neg hbrk]
  rfl

/-- Unfolding step of the loop when the window is emitted and the loop then
breaks (`i + chunk_size >= len(words)`). -/
theorem chunkWindows_break {cs ms st : Nat} {words : List String} {fuel i : Nat}
    (hi : i < words.length) (hms : ms ≤ ((words.drop i).take cs).length)
    (hbrk : words.length ≤ i + cs) :
    chunkWindows cs ms st words (fuel + 1) i = [(words.drop i).take cs] := by
  rw [chunkWindows, if_pos hi, if_pos hms, if_pos hbrk]
  rfl

/-- Word count of a space-joined window of words taken from a split
result. -/
theorem wordCount_joinWords {text : String} {w : List String}
    (hsub : ∀ x ∈ w, x ∈ splitWords text) (hne : w ≠ []) :
    wordCount (joinWords w) = w.length := by
  unfold wordCount
  rw [splitWords_joinWords hne (fun x hx => splitWords_words x (hsub x hx))]

/-- On a word list of exactly 1200 words, the loop with the deployed
parameters (window 500, step 400, minimum 50) emits the windows starting at
words 0, 400 and 800. -/
theorem chunkWindows_1200 {words : List String} (h : words.length = 1200) :
    ∀ fuel, 3 ≤ fuel → chunkWindows 500 50 400 words fuel 0 =
      [(words.drop 0).take 500, (words.drop 400).take 500,
        (words.drop 800).take 500] := by
  intro fuel hfuel
  obtain ⟨f3, rfl⟩ : ∃ f3, fuel = f3 + 3 := ⟨fuel - 3, by omega⟩
  have hlen : ∀ j : Nat, ((words.drop j).take 500).length = min 500 (1200 - j) := by
    intro j
    simp [List.length_take, List.length_drop, h]
  show chunkWindows 500 50 400 words ((f3 + 2) + 1) 0 = _
  rw [chunkWindows_cons (by omega) (by rw [hlen]; omega) (by omega)]
  show _ :: chunkWindows 500 50 400 words ((f3 + 1) + 1) (0 + 400) = _
  rw [chunkWindows_cons (by omega) (by rw [hlen]; omega) (by omega)]
  show _ :: _ :: chunkWindows 500 50 400 words (f3 + 1) (0 + 400 + 400) = _
  rw [chunkWindows_break (by omega) (by rw [hlen]; omega) (by omega)]

/-- For any text of exactly 1200 words, `_chunk_text` with the deployed
configuration produces three chunks of word counts 500, 500 and 400. -/
theorem chunk_text_word_counts_1200 {text : String}
    (h : (splitWords text).length = 1200) :
    (chunk_text defaultChunkConfig text).map wordCount = [500, 500, 400] := by
  have hw : splitWords text ≠ [] := by
    intro hnil
    rw [hnil] at h
    simp at h
  have hstrip := pyStrip_ne_empty_of_splitWords_ne_nil hw
  have hsub : ∀ j : Nat, ∀ x ∈ ((splitWords text).drop j).take 500,
      x ∈ splitWords text := fun j x hx =>
    List.drop_subset _ _ (List.take_subset _ _ hx)
  have hlen : ∀ j : Nat, (((splitWords text).drop j).take 500).length =
      min 500 (1200 - j) := by
    intro j
    simp [List.length_take, List.length_drop, h]
  have hne : ∀ j : Nat, j ≤ 800 → ((splitWords text).drop j).take 500 ≠ [] := by
    intro j hj hnil
    have := hlen j
    rw [hnil] at this
    simp at this
    omega
  simp only [chunk_text, default_chunk_size, default_min_chunk_size,
    overlapSize_default, h]
  rw [if_neg hstrip, if_neg (by omega : ¬ (1200 ≤ 500)),
    show (500 : Nat) - 100 = 400 by norm_num,
    chunkWindows_1200 h (1200 + 1) (by omega)]
  simp only [List.map_cons, List.map_nil]
  rw [wordCount_joinWords (hsub 0) (hne 0 (by omega)),
    wordCount_joinWords (hsub 400) (hne 400 (by omega)),
    wordCount_joinWords (hsub 800) (hne 800 (by omega)),
    hlen 0, hlen 400, hlen 800]
  decide

/-- In the sliding-window branch (more than `chunk_size` words), every chunk
has at least `min_chunk_size` words. -/
theorem chunk_text_window_min {text : String}
    (hgt : 500 < (splitWords text).length) :
    ∀ chunk ∈ chunk_text defaultChunkConfig text, 50 ≤ wordCount chunk := by
  intro chunk hc
  have hw : splitWords text ≠ [] := by
    intro hnil
    rw [hnil] at hgt
    simp at hgt
  have hstrip := pyStrip_ne_empty_of_splitWords_ne_nil hw
  simp only [chunk_text, default_chunk_size, default_min_chunk_size] at hc
  rw [if_neg hstrip, if_neg (by omega : ¬ ((splitWords text).length ≤ 500))] at hc
  obtain ⟨w, hwmem, rfl⟩ := List.mem_map.1 hc
  obtain ⟨hms, j, rfl⟩ := mem_chunkWindows hwmem
  rw [wordCount_joinWords (fun x hx => List.drop_subset _ _ (List.take_subset _ _ hx))
    (by intro hnil; rw [hnil] at hms; simp at hms)]
  exact hms

/-- A nonempty text of at most `chunk_size` words is returned whole as a
single chunk, regardless of `min_chunk_size`. -/
theorem chunk_text_single {text : String} (hstrip : pyStrip text ≠ "")
    (hle : (splitWords text).length ≤ 500) :
    chunk_text defaultChunkConfig text = [text] := by
  simp only [chunk_text, default_chunk_size]
  rw [if_neg hstrip, if_pos hle]

/-! ## Lemmas about the embedding loop -/

section EmbedLoop

variable {E : Type} (hashFn : String → String) (embedFn : String → E)
  (meta : DocumentMetadata) (ocrUsed : Bool) (insertFails : Nat → Bool)

/-- Rows only accumulate: a content hash present in the table stays present
through the loop. -/
theorem hashExists_embed_chunks_loop {h : String} :
    ∀ (pairs : List (Nat × String)) (store : List (Row E)) (count : Nat),
      hashExists store h = true →
      hashExists (embed_chunks_loop hashFn embedFn meta ocrUsed insertFails
        pairs store count).1 h = true
  | [], store, count, hmem => hmem
  | (i, chunk) :: rest, store, count, hmem => by
    rw [embed_chunks_loop]
    by_cases hex : hashExists store (hashFn chunk)
    · rw [if_pos hex]
      exact hashExists_embed_chunks_loop rest store count hmem
    · rw [if_neg hex]
      by_cases hf : insertFails i
      · rw [if_pos hf]
        exact hashExists_embed_chunks_loop rest store count hmem
      · rw [if_neg hf]
        refine hashExists_embed_chunks_loop rest _ (count + 1) ?_
        unfold hashExists at hmem ⊢
        rw [List.any_append, hmem, Bool.true_or]

/-- After a run of the loop in which no chunk fails, every processed chunk's
content hash is present in the resulting table (it was either already there,
or skipped because present, or freshly inserted). -/
theorem embed_chunks_loop_covers (hok : ∀ i, insertFails i = false) :
    ∀ (pairs : List (Nat × String)) (store : List (Row E)) (count : Nat),
      ∀ p ∈ pairs, hashExists (embed_chunks_loop hashFn embedFn meta ocrUsed
        insertFails pairs store count).1 (hashFn p.2) = true
  | (i, chunk) :: rest, store, count, p, hp => by
    rw [embed_chunks_loop]
    by_cases hex : hashExists store (hashFn chunk)
    · rw [if_pos hex]
      rcases List.mem_cons.1 hp with rfl | hp
      · exact hashExists_embed_chunks_loop hashFn embedFn meta ocrUsed insertFails
          rest store count hex
      · exact embed_chunks_loop_covers hok rest store count p hp
    · rw [if_neg hex, if_neg (by rw [hok i]; exact Bool.false_ne_true)]
      rcases List.mem_cons.1 hp with rfl | hp
      · refine hashExists_embed_chunks_loop hashFn embedFn meta ocrUsed insertFails
          rest _ (count + 1) ?_
        unfold hashExists
        rw [List.any_append]
        simp
      · exact embed_chunks_loop_covers hok rest _ (count + 1) p hp

/-- If every processed chunk's content hash is already in the table, the loop
is a no-op: the table is unchanged and nothing is counted as embedded. -/
theorem embed_chunks_loop_all_present :
    ∀ (pairs : List (Nat × String)) (store : List (Row E)) (count : Nat),
      (∀ p ∈ pairs, hashExists store (hashFn p.2) = true) →
      embed_chunks_loop hashFn embedFn meta ocrUsed insertFails pairs store count =
        (store, count)
  | [], store, count, _ => rfl
  | (i, chunk) :: rest, store, count, hall => by
    rw [embed_chunks_loop,
      if_pos (hall (i, chunk) (List.mem_cons_self _ _)),
      embed_chunks_loop_all_present rest store count
        (fun p hp => hall p (List.mem_cons_of_mem _ hp))]

/-- A chunk whose processing raises is simply skipped: the loop behaves
exactly as if that `(index, chunk)` pair were absent from its input. -/
theorem embed_chunks_loop_drop_failing {i : Nat} {chunk : String}
    (hf : insertFails i = true) :
    ∀ (pre post : List (Nat × String)) (store : List (Row E)) (count : Nat),
      embed_chunks_loop hashFn embedFn meta ocrUsed insertFails
        (pre ++ (i, chunk) :: post) store count =
      embed_chunks_loop hashFn embedFn meta ocrUsed insertFails
        (pre ++ post) store count
  | [], post, store, count => by
    rw [List.nil_append, List.nil_append, embed_chunks_loop]
    by_cases hex : hashExists store (hashFn chunk)
    · rw [if_pos hex]
    · rw [if_neg hex, if_pos hf]
  | (j, c) :: pre, post, store, count => by
    rw [List.cons_append, List.cons_append, embed_chunks_loop, embed_chunks_loop]
    by_cases hex : hashExists store (hashFn c)
    · rw [if_pos hex, if_pos hex]
      exact embed_chunks_loop_drop_failing hf pre post store count
    · rw [if_neg hex, if_neg hex]
      by_cases hjf : insertFails j
      · rw [if_pos hjf, if_pos hjf]
        exact embed_chunks_loop_drop_failing hf pre post store count
      · rw [if_neg hjf, if_neg hjf]
        exact embed_chunks_loop_drop_failing hf pre post _ (count + 1)

end EmbedLoop

/-- Re-ingesting the same extracted text over the table produced by a first
ingestion (with no chunk failures in either run) inserts nothing and leaves
the table unchanged. -/
theorem embed_document_idempotent {E : Type} (hashFn : String → String)
    (embedFn : String → E) (insertFails : Nat → Bool)
    (extraction : Except ExtractErr (String × Bool)) (meta : DocumentMetadata)
    (store : List (Row E)) (hok : ∀ i, insertFails i = false) :
    (embed_document hashFn embedFn insertFails extraction meta
        (embed_document hashFn embedFn insertFails extraction meta store).1).2.1 = 0 ∧
    (embed_document hashFn embedFn insertFails extraction meta
        (embed_document hashFn embedFn insertFails extraction meta store).1).1 =
      (embed_document hashFn embedFn insertFails extraction meta store).1 := by
  match extraction with
  | .error e => exact ⟨rfl, rfl⟩
  | .ok (text, ocrUsed) =>
    by_cases htext : text = ""
    · subst htext
      exact ⟨rfl, rfl⟩
    · match hch : chunk_text defaultChunkConfig text with
      | [] => simp [embed_document, if_neg htext, hch]
      | c :: cs =>
        have hcover := embed_chunks_loop_covers hashFn embedFn meta ocrUsed
          insertFails hok ((c :: cs).enum) store 0
        have hnoop := embed_chunks_loop_all_present hashFn embedFn meta ocrUsed
          insertFails ((c :: cs).enum)
          (embed_chunks_loop hashFn embedFn meta ocrUsed insertFails
            ((c :: cs).enum) store 0).1 0 hcover
        simp only [embed_document, if_neg htext, hch]
        rw [hnoop]
        exact ⟨rfl, rfl⟩


/-! ## Facts about the 1200-word sample text -/

theorem splitWords_text1200 : splitWords text1200 = words1200 := by
  apply splitWords_joinWords
  · intro hnil
    have hlen := congrArg List.length hnil
    simp only [words1200, List.length_replicate, List.length_nil] at hlen
    omega
  · intro w hw
    have := List.eq_of_mem_replicate hw
    subst this
    exact ⟨by decide, by decide⟩

theorem length_splitWords_text1200 : (splitWords text1200).length = 1200 := by
  rw [splitWords_text1200]
  simp only [words1200, List.length_replicate]

theorem gt_500_splitWords_text1200 : 500 < (splitWords text1200).length := by
  rw [length_splitWords_text1200]
  omega

/-! ## Classifier characterizations -/

/-- Integer form of the `_is_scanned_pdf` decision rule for documents with at
least one page: scanned iff the inspected character total is below `100 * n`
and the inspected image total is positive (`n = min(3, page_count)`; the
rational averages compare this way since `n > 0`). -/
theorem is_scanned_pdf_some_iff {d : Pdf} (h : d.pages ≠ []) :
    is_scanned_pdf (some d) = true ↔
      (inspectedTextChars d < 100 * min 3 d.pages.length ∧ 0 < inspectedImages d) := by
  have hlen : ¬ d.pages.length = 0 := fun h0 => h (List.length_eq_zero.1 h0)
  have hnpos : 0 < min 3 d.pages.length := by omega
  have hn : (0 : ℚ) < ((min 3 d.pages.length : Nat) : ℚ) := by exact_mod_cast hnpos
  simp only [is_scanned_pdf, if_neg hlen, decide_eq_true_eq]
  rw [div_lt_iff₀ hn, lt_div_iff₀ hn, zero_mul]
  constructor
  · rintro ⟨h1, h2⟩
    exact ⟨by exact_mod_cast h1, by exact_mod_cast h2⟩
  · rintro ⟨h1, h2⟩
    exact ⟨by exact_mod_cast h1, by exact_mod_cast h2⟩

/-- A zero-page document is reported scanned (the average computation raises
`ZeroDivisionError`, caught by the handler that returns `True`). -/
theorem is_scanned_pdf_zero_pages {d : Pdf} (h : d.pages = []) :
    is_scanned_pdf (some d) = true := by
  simp [is_scanned_pdf, h]

/-- `detect_pdf_type` reports scanned exactly when the inspected character
total is below 300 — no image condition at all (a zero total counts as an
average of 0, which is below 100). -/
theorem detect_pdf_type_scanned_iff {d : Pdf} :
    detect_pdf_type (some d) = "scanned" ↔ inspectedTextChars d < 300 := by
  simp only [detect_pdf_type]
  by_cases h0 : inspectedTextChars d = 0
  · rw [if_pos h0, if_pos (by norm_num : (0 : ℚ) < 100)]
    simp [h0]
  · rw [if_neg h0]
    by_cases h3 : inspectedTextChars d < 300
    · rw [if_pos (by
        rw [div_lt_iff₀ (by norm_num : (0 : ℚ) < 3)]
        exact_mod_cast h3)]
      simp [h3]
    · rw [if_neg (by
        rw [div_lt_iff₀ (by norm_num : (0 : ℚ) < 3)]
        intro hq
        exact h3 (by exact_mod_cast hq))]
      constructor
      · intro hcontr
        exact absurd hcontr (by decide)
      · intro hcontr
        exact absurd hcontr h3

/-- Unfolding of `extract_text_from_pdf` for an existing, openable
document. -/
theorem extract_text_from_pdf_some (d : Pdf) (ocrResult : Option String) :
    extract_text_from_pdf true (some d) ocrResult =
      (if pyStrip (nativeText d) ≠ "" ∧ 100 < (pyStrip (nativeText d)).length then
        .ok (pyStrip (nativeText d), false)
      else if is_scanned_pdf (some d) then
        match ocrResult with
        | some o =>
          if pyStrip o ≠ "" then .ok (pyStrip o, true)
          else .ok (pyStrip (nativeText d), false)
        | none => .ok (pyStrip (nativeText d), false)
      else .ok (pyStrip (nativeText d), false)) := rfl

/-! ## Claims -/

/-- Claim C1, counterexample: in the `embed_document` per-chunk loop, an
exception while inserting chunk 1 of three fresh chunks does not roll the
batch back — chunks 0 and 2 are still inserted and counted
(`embedded_count = 2`, two rows persisted), contradicting "the entire batch
is rolled back and zero chunks of that call are persisted". -/
theorem claim_C1_counterexample :
    (embed_chunks_loop (E := Unit) id (fun _ => ()) sampleMeta false
        (fun i => decide (i = 1)) [(0, "alpha"), (1, "beta"), (2, "gamma")] [] 0).2 = 2 ∧
    (embed_chunks_loop (E := Unit) id (fun _ => ()) sampleMeta false
        (fun i => decide (i = 1)) [(0, "alpha"), (1, "beta"), (2, "gamma")] [] 0).1.length = 2 ∧
    (fun i : Nat => decide (i = 1)) 1 = true := by
  refine ⟨by decide, by decide, by decide⟩

/-- Claim C1, amended: `store_document_and_chunks` commits atomically — on a
document-insert failure or any chunk-row insert failure it returns `None` and
the state is unchanged — but `embed_document` is not atomic: a per-row
exception is caught inside the loop and only that chunk is skipped (the loop
behaves exactly as if the failing pair were absent), so the other chunks of
the call are still committed and a partially-persisted document is
possible. -/
theorem claim_C1_amended :
    (∀ (E : Type) (pdf_path filename : String) (file_size : Nat)
        (file_hash : String) (chunks : List String) (embeddings : List E)
        (docInsertFails : Bool) (chunkInsertFails : Nat → Bool)
        (st : PipelineState E),
      (docInsertFails = true ∨ ∃ i < chunks.length, chunkInsertFails i = true) →
      store_document_and_chunks pdf_path filename file_size file_hash chunks
        embeddings docInsertFails chunkInsertFails st = (st, none)) ∧
    (∀ (E : Type) (hashFn : String → String) (embedFn : String → E)
        (meta : DocumentMetadata) (ocrUsed : Bool) (insertFails : Nat → Bool)
        (i : Nat) (chunk : String), insertFails i = true →
      ∀ (pre post : List (Nat × String)) (store : List (Row E)) (count : Nat),
        embed_chunks_loop hashFn embedFn meta ocrUsed insertFails
          (pre ++ (i, chunk) :: post) store count =
        embed_chunks_loop hashFn embedFn meta ocrUsed insertFails
          (pre ++ post) store count) := by
  constructor
  · intro E pdf_path filename file_size file_hash chunks embeddings docFail
      chunkFail st hfail
    unfold store_document_and_chunks
    by_cases hmm : chunks.length ≠ embeddings.length
    · rw [if_pos hmm]
    · rw [if_neg hmm]
      by_cases hdoc : docFail = true
      · rw [if_pos hdoc]
      · rcases hfail with hdoc' | ⟨i, hi, hf⟩
        · exact absurd hdoc' hdoc
        · rw [if_neg hdoc,
            if_pos (List.any_eq_true.2 ⟨i, List.mem_range.2 hi, hf⟩)]
  · intro E hashFn embedFn meta ocrUsed insertFails i chunk hf pre post store count
    exact embed_chunks_loop_drop_failing hashFn embedFn meta ocrUsed insertFails
      hf pre post store count

/-- Claim C1, witness for the amended theorem: a failing document insert
stores nothing and returns `None`; a failing chunk 1 makes the embed loop
behave as if chunk 1 were absent. -/
theorem claim_C1_witness :
    store_document_and_chunks (E := Unit) "r.pdf" "r.pdf" 10 "h" ["alpha"] [()]
        true (fun _ => false) ⟨[], []⟩ = (⟨[], []⟩, none) ∧
    embed_chunks_loop (E := Unit) id (fun _ => ()) sampleMeta false
        (fun i => decide (i = 1)) ([(0, "alpha")] ++ (1, "beta") :: [(2, "gamma")]) [] 0 =
      embed_chunks_loop (E := Unit) id (fun _ => ()) sampleMeta false
        (fun i => decide (i = 1)) ([(0, "alpha")] ++ [(2, "gamma")]) [] 0 :=
  ⟨claim_C1_amended.1 Unit "r.pdf" "r.pdf" 10 "h" ["alpha"] [()] true
      (fun _ => false) ⟨[], []⟩ (Or.inl rfl),
   claim_C1_amended.2 Unit id (fun _ => ()) sampleMeta false
      (fun i => decide (i = 1)) 1 "beta" (by decide) [(0, "alpha")] [(2, "gamma")] [] 0⟩

/-- Claim C2: ingestion is idempotent.  Re-running `embed_document` on the
same extracted text over the table produced by the first run (no chunk
failures) inserts 0 chunks — every chunk is skipped by the content-hash dedup
gate — and the stored rows are unchanged. -/
theorem claim_C2_idempotent {E : Type} (hashFn : String → String)
    (embedFn : String → E) (insertFails : Nat → Bool)
    (extraction : Except ExtractErr (String × Bool)) (meta : DocumentMetadata)
    (store : List (Row E)) (hok : ∀ i, insertFails i = false) :
    (embed_document hashFn embedFn insertFails extraction meta
        (embed_document hashFn embedFn insertFails extraction meta store).1).2.1 = 0 ∧
    (embed_document hashFn embedFn insertFails extraction meta
        (embed_document hashFn embedFn insertFails extraction meta store).1).1 =
      (embed_document hashFn embedFn insertFails extraction meta store).1 :=
  embed_document_idempotent hashFn embedFn insertFails extraction meta store hok

/-- Claim C2, witness: ingesting a three-word text twice from an empty table
inserts its single chunk once; the second run inserts 0 and leaves the table
unchanged. -/
theorem claim_C2_witness :
    (embed_document (E := Unit) id (fun _ => ()) (fun _ => false)
        (.ok ("alpha beta gamma", false)) sampleMeta
        (embed_document (E := Unit) id (fun _ => ()) (fun _ => false)
          (.ok ("alpha beta gamma", false)) sampleMeta []).1).2.1 = 0 ∧
    (embed_document (E := Unit) id (fun _ => ()) (fun _ => false)
        (.ok ("alpha beta gamma", false)) sampleMeta
        (embed_document (E := Unit) id (fun _ => ()) (fun _ => false)
          (.ok ("alpha beta gamma", false)) sampleMeta []).1).1 =
      (embed_document (E := Unit) id (fun _ => ()) (fun _ => false)
        (.ok ("alpha beta gamma", false)) sampleMeta []).1 :=
  claim_C2_idempotent id (fun _ => ()) (fun _ => false)
    (.ok ("alpha beta gamma", false)) sampleMeta [] (fun _ => rfl)

/-- Claim C3, counterexample: with the store unavailable, `search_documents`
over a nonempty table whose row passes the (absent) filters returns the
empty list — exactly what it returns when no rows match — instead of
propagating a retryable error.  The error is swallowed by the
`except` handler. -/
theorem claim_C3_counterexample :
    search_documents (E := Unit) false (fun _ => 0) none none 5 [sampleRow] = [] ∧
    [sampleRow] ≠ ([] : List (Row Unit)) ∧
    rowPassesFilters (E := Unit) none none sampleRow = true :=
  ⟨rfl, List.cons_ne_nil _ _, rfl⟩

/-- Claim C3, amended: any exception during `search_documents` (store
unavailability included) is caught, logged, and turned into the empty list,
indistinguishable from "no rows match"; nothing propagates to the caller. -/
theorem claim_C3_amended :
    ∀ (E : Type) (dist : E → ℚ) (yearFilter : Option Int)
      (docTypeFilter : Option String) (limit : Nat) (rows : List (Row E)),
      search_documents false dist yearFilter docTypeFilter limit rows = [] :=
  fun _ _ _ _ _ _ => rfl

/-- Claim C4, counterexample: for a text of exactly 1200 words, the chunker
with `chunk_size_words = 500, overlap_ratio = 0.2, min_chunk_words = 50`
produces word counts `[500, 500, 400]`, not the claimed `[500, 500, 300]`
(the step is 400, so the third window starts at word 800 and takes all 400
remaining words). -/
theorem claim_C4_counterexample :
    (chunk_text defaultChunkConfig text1200).map wordCount = [500, 500, 400] ∧
    (chunk_text defaultChunkConfig text1200).map wordCount ≠ [500, 500, 300] ∧
    (splitWords text1200).length = 1200 := by
  have h := chunk_text_word_counts_1200 length_splitWords_text1200
  exact ⟨h, by rw [h]; decide, length_splitWords_text1200⟩

/-- Claim C4, amended: every input text of exactly 1200 words chunked with
the deployed configuration yields exactly 3 chunks of word counts
`[500, 500, 400]` (100-word overlap carried into chunks 2 and 3; the final
chunk keeps the remaining 400 words). -/
theorem claim_C4_amended {text : String}
    (h : (splitWords text).length = 1200) :
    (chunk_text defaultChunkConfig text).map wordCount = [500, 500, 400] :=
  chunk_text_word_counts_1200 h

/-- Claim C4, witness: the amended theorem applied to the concrete 1200-word
sample text. -/
theorem claim_C4_witness :
    (splitWords text1200).length = 1200 ∧
    (chunk_text defaultChunkConfig text1200).map wordCount = [500, 500, 400] :=
  ⟨length_splitWords_text1200, claim_C4_amended length_splitWords_text1200⟩

/-- Claim C5, counterexample: a nonempty text of 3 words (below
`min_chunk_words = 50`) is returned whole as a single 3-word chunk — the
minimum-size guard does not apply to texts of at most `chunk_size` words. -/
theorem claim_C5_counterexample :
    chunk_text defaultChunkConfig "alpha beta gamma" = ["alpha beta gamma"] ∧
    wordCount "alpha beta gamma" = 3 ∧ ¬ 50 ≤ wordCount "alpha beta gamma" :=
  ⟨by decide, by decide, by decide⟩

/-- Claim C5, amended: the `min_chunk_words` guard holds only in the
sliding-window branch — for texts of more than `chunk_size` words every
emitted chunk has at least `min_chunk_words` words — while a nonempty text of
at most `chunk_size` words is returned whole as one chunk regardless of its
word count. -/
theorem claim_C5_amended :
    (∀ text : String, 500 < (splitWords text).length →
      ∀ chunk ∈ chunk_text defaultChunkConfig text, 50 ≤ wordCount chunk) ∧
    (∀ text : String, pyStrip text ≠ "" → (splitWords text).length ≤ 500 →
      chunk_text defaultChunkConfig text = [text]) :=
  ⟨fun _ h => chunk_text_window_min h, fun _ h1 h2 => chunk_text_single h1 h2⟩

/-- Claim C5, witness: the single-chunk branch of the amended theorem at a
concrete three-word text. -/
theorem claim_C5_witness :
    chunk_text defaultChunkConfig "alpha beta gamma" = ["alpha beta gamma"] :=
  claim_C5_amended.2 "alpha beta gamma" (by decide) (by decide)

/-- Claim C6, counterexample: the two classifiers disagree with the claimed
rule.  On a one-page PDF with no text and no images the claimed rule says
native (average image count is 0), and `_is_scanned_pdf` indeed returns
false, but `detect_pdf_type` returns "scanned" (it never consults images);
and on an analysis error `detect_pdf_type` returns "native", not
"scanned". -/
theorem claim_C6_counterexample :
    detect_pdf_type (some blankPagePdf) = "scanned" ∧
    is_scanned_pdf (some blankPagePdf) = false ∧
    detect_pdf_type none = "native" := by
  refine ⟨detect_pdf_type_scanned_iff.2 (by decide), ?_, rfl⟩
  have hiff := is_scanned_pdf_some_iff (d := blankPagePdf) (by decide)
  cases hsc : is_scanned_pdf (some blankPagePdf) with
  | false => rfl
  | true => exact absurd (hiff.1 hsc).2 (by decide)

/-- Claim C6, amended: `OCRProcessor._is_scanned_pdf` implements the claimed
rule — scanned iff average characters per page over the first
`min(3, page_count)` pages is below 100 and average images per page is
positive, with errors (including the zero-page division error) defaulting to
scanned — while `EnhancedLocalPDFRAGPipeline.detect_pdf_type` uses only the
character heuristic (scanned iff the inspected character total is below 300,
with no image condition) and returns native on error. -/
theorem claim_C6_amended :
    (∀ d : Pdf, d.pages ≠ [] →
      (is_scanned_pdf (some d) = true ↔
        (inspectedTextChars d < 100 * min 3 d.pages.length ∧
          0 < inspectedImages d))) ∧
    is_scanned_pdf none = true ∧
    (∀ d : Pdf, d.pages = [] → is_scanned_pdf (some d) = true) ∧
    (∀ d : Pdf, detect_pdf_type (some d) = "scanned" ↔ inspectedTextChars d < 300) ∧
    detect_pdf_type none = "native" :=
  ⟨fun _ h => is_scanned_pdf_some_iff h, rfl,
   fun _ h => is_scanned_pdf_zero_pages h,
   fun _ => detect_pdf_type_scanned_iff, rfl⟩

/-- Claim C6, witness: the decision rule instantiated at a one-page PDF with
no text and one image. -/
theorem claim_C6_witness :
    is_scanned_pdf (some scannedLikePdf) = true ↔
      (inspectedTextChars scannedLikePdf <
          100 * min 3 scannedLikePdf.pages.length ∧
        0 < inspectedImages scannedLikePdf) :=
  claim_C6_amended.1 scannedLikePdf (by decide)

/-- Claim C7: the text-extraction contract for an existing, openable PDF.
If the stripped native text exceeds 100 characters it is returned with
`ocr_used = false`; otherwise, if the classifier reports scanned and OCR
yields nonempty text, the stripped OCR text is returned with
`ocr_used = true`; and if the classifier reports native, OCR raises, or OCR
yields empty text, the stripped native text (possibly empty) is returned with
`ocr_used = false` — extraction never fails in these cases. -/
theorem claim_C7_extraction (d : Pdf) (ocrResult : Option String) :
    (100 < (pyStrip (nativeText d)).length →
      extract_text_from_pdf true (some d) ocrResult =
        .ok (pyStrip (nativeText d), false)) ∧
    (¬ 100 < (pyStrip (nativeText d)).length → is_scanned_pdf (some d) = true →
      ∀ o : String, ocrResult = some o → pyStrip o ≠ "" →
        extract_text_from_pdf true (some d) ocrResult = .ok (pyStrip o, true)) ∧
    (¬ 100 < (pyStrip (nativeText d)).length →
      (is_scanned_pdf (some d) = false ∨ ocrResult = none ∨
        (∃ o : String, ocrResult = some o ∧ pyStrip o = "")) →
      extract_text_from_pdf true (some d) ocrResult =
        .ok (pyStrip (nativeText d), false)) := by
  refine ⟨?_, ?_, ?_⟩
  · intro h
    have hne : pyStrip (nativeText d) ≠ "" := by
      intro he
      rw [he] at h
      exact absurd h (by decide)
    rw [extract_text_from_pdf_some, if_pos ⟨hne, h⟩]
  · intro h hscan o ho hone
    subst ho
    rw [extract_text_from_pdf_some, if_neg (fun hc => h hc.2), if_pos hscan]
    show (if pyStrip o ≠ "" then
        (Except.ok (pyStrip o, true) : Except ExtractErr (String × Bool))
      else Except.ok (pyStrip (nativeText d), false)) = Except.ok (pyStrip o, true)
    rw [if_pos hone]
  · intro h hcase
    rw [extract_text_from_pdf_some, if_neg (fun hc => h hc.2)]
    rcases hcase with hsc | hnone | ⟨o, ho, hoe⟩
    · rw [if_neg (by rw [hsc]; exact Bool.false_ne_true)]
    · subst hnone
      by_cases hsc : is_scanned_pdf (some d) = true
      · rw [if_pos hsc]
      · rw [if_neg hsc]
    · subst ho
      by_cases hsc : is_scanned_pdf (some d) = true
      · rw [if_pos hsc]
        show (if pyStrip o ≠ "" then
            (Except.ok (pyStrip o, true) : Except ExtractErr (String × Bool))
          else Except.ok (pyStrip (nativeText d), false)) =
          Except.ok (pyStrip (nativeText d), false)
        rw [if_neg (fun hne => hne hoe)]
      · rw [if_neg hsc]

/-- Claim C7, witness: a zero-page PDF (empty native text, classified
scanned via the error default) with successful OCR returns the OCR text with
`ocr_used = true`. -/
theorem claim_C7_witness :
    extract_text_from_pdf true (some ⟨[]⟩) (some "cash balance") =
      .ok (pyStrip "cash balance", true) :=
  (claim_C7_extraction ⟨[]⟩ (some "cash balance")).2.1 (by decide) (by decide)
    "cash balance" rfl (by decide)

/-- Claim C8: search over an available store returns results ordered by
non-increasing similarity (`1 - dist` of each stored embedding against the
query vector), of length `min(limit, matching rows)`; every result comes from
a stored row passing the filters, and when a (truthy) year or doc_type
filter is present every result satisfies the corresponding equality. -/
theorem claim_C8_search (E : Type) (dist : E → ℚ) (yearFilter : Option Int)
    (docTypeFilter : Option String) (limit : Nat) (rows : List (Row E)) :
    List.Sorted (fun a b => b.similarity ≤ a.similarity)
        (search_documents true dist yearFilter docTypeFilter limit rows) ∧
    (search_documents true dist yearFilter docTypeFilter limit rows).length =
      min limit (rows.filter (rowPassesFilters yearFilter docTypeFilter)).length ∧
    (∀ res ∈ search_documents true dist yearFilter docTypeFilter limit rows,
      ∃ r ∈ rows, rowPassesFilters yearFilter docTypeFilter r = true ∧
        res.similarity = 1 - dist r.embedding ∧ res.year = r.year ∧
        res.doc_type = r.doc_type ∧ res.content = r.content) ∧
    (∀ y : Int, yearFilter = some y → y ≠ 0 →
      ∀ res ∈ search_documents true dist yearFilter docTypeFilter limit rows,
        res.year = y) ∧
    (∀ s : String, docTypeFilter = some s → s ≠ "" →
      ∀ res ∈ search_documents true dist yearFilter docTypeFilter limit rows,
        res.doc_type = s) := by
  haveI instTot : IsTotal SearchResult (fun a b => b.similarity ≤ a.similarity) :=
    ⟨fun a b => le_total b.similarity a.similarity⟩
  haveI instTr : IsTrans SearchResult (fun a b => b.similarity ≤ a.similarity) :=
    ⟨fun _ _ _ hab hbc => le_trans hbc hab⟩
  have hmem : ∀ res ∈ search_documents true dist yearFilter docTypeFilter limit rows,
      ∃ r, (r ∈ rows ∧ rowPassesFilters yearFilter docTypeFilter r = true) ∧
        res = { content := r.content, pdf_name := r.pdf_name, pdf_link := r.pdf_link,
                year := r.year, doc_type := r.doc_type, chunk_index := r.chunk_index,
                ocr_processed := r.ocr_processed,
                similarity := 1 - dist r.embedding } := by
    intro res hres
    unfold search_documents at hres
    rw [if_neg (by decide : ¬ (true = false))] at hres
    have h1 := List.mem_of_mem_take hres
    rw [List.mem_insertionSort] at h1
    obtain ⟨r, hr, rfl⟩ := List.mem_map.1 h1
    exact ⟨r, List.mem_filter.1 hr, rfl⟩
  refine ⟨?_, ?_, ?_, ?_, ?_⟩
  · unfold search_documents
    rw [if_neg (by decide : ¬ (true = false))]
    exact List.Pairwise.sublist (List.take_sublist _ _)
      (List.sorted_insertionSort _ _)
  · unfold search_documents
    rw [if_neg (by decide : ¬ (true = false))]
    rw [List.length_take, (List.perm_insertionSort _ _).length_eq, List.length_map]
  · intro res hres
    obtain ⟨r, ⟨hrows, hpass⟩, rfl⟩ := hmem res hres
    exact ⟨r, hrows, hpass, rfl, rfl, rfl, rfl⟩
  · intro y hy hyne res hres
    obtain ⟨r, ⟨hrows, hpass⟩, rfl⟩ := hmem res hres
    rw [hy] at hpass
    simp only [rowPassesFilters, Bool.and_eq_true] at hpass
    have h1 := hpass.1
    rw [if_pos hyne] at h1
    exact of_decide_eq_true h1
  · intro s hs hsne res hres
    obtain ⟨r, ⟨hrows, hpass⟩, rfl⟩ := hmem res hres
    rw [hs] at hpass
    simp only [rowPassesFilters, Bool.and_eq_true] at hpass
    have h1 := hpass.2
    rw [if_pos hsne] at h1
    exact of_decide_eq_true h1

/-- Claim C8, witness: searching two stored rows (years 2022 and 2023) with
`year_filter = 2022` returns exactly one result, and every returned result
has year 2022. -/
theorem claim_C8_witness :
    (search_documents true (fun _ : Unit => 0) (some 2022) none 5
        [sampleRow, sampleRow2023]).length = 1 ∧
    ∀ res ∈ search_documents true (fun _ : Unit => 0) (some 2022) none 5
        [sampleRow, sampleRow2023], res.year = 2022 :=
  ⟨((claim_C8_search Unit (fun _ => 0) (some 2022) none 5
      [sampleRow, sampleRow2023]).2.1).trans (by decide),
   (claim_C8_search Unit (fun _ => 0) (some 2022) none 5
      [sampleRow, sampleRow2023]).2.2.2.1 2022 rfl (by decide)⟩

/-- Claim C9: HyDE cache correctness.  With expansion enabled (openai
backend available) and caching on, if the cache has no entry for the query's
key and the provider succeeds, then the first call invokes the provider
exactly once and caches the stripped text, and an immediately following call
with the same query and model makes no provider call and returns the same
text. -/
theorem claim_C9_hyde_cache (cfg : HyDEConfig) (hasOpenai : Bool)
    (md5hex : String → String) (provider : String → Option String)
    (cache : List (String × String)) (query raw : String)
    (hen : cfg.enabled = true) (hback : cfg.backend = "openai")
    (hoai : hasOpenai = true) (hcache : cfg.cache_responses = true)
    (hmiss : cache.lookup (md5hex (query ++ "_" ++ cfg.model_name)) = none)
    (hprov : provider query = some raw) :
    (generate_hypothetical_document cfg hasOpenai md5hex provider cache query).2.2 = 1 ∧
    (generate_hypothetical_document cfg hasOpenai md5hex provider
        (generate_hypothetical_document cfg hasOpenai md5hex provider cache
          query).2.1 query).2.2 = 0 ∧
    (generate_hypothetical_document cfg hasOpenai md5hex provider cache query).1 =
      some (pyStrip raw) ∧
    (generate_hypothetical_document cfg hasOpenai md5hex provider
        (generate_hypothetical_document cfg hasOpenai md5hex provider cache
          query).2.1 query).1 =
      (generate_hypothetical_document cfg hasOpenai md5hex provider cache query).1 := by
  have hcond : ¬ (cfg.enabled = false ∨ cfg.backend ≠ "openai" ∨ hasOpenai = false) := by
    simp [hen, hback, hoai]
  have h1 : generate_hypothetical_document cfg hasOpenai md5hex provider cache query =
      (some (pyStrip raw),
        (md5hex (query ++ "_" ++ cfg.model_name), pyStrip raw) :: cache, 1) := by
    unfold generate_hypothetical_document
    rw [if_neg hcond, if_pos hcache, hmiss, hprov]
    simp [hcache]
  have h2 : generate_hypothetical_document cfg hasOpenai md5hex provider
      ((md5hex (query ++ "_" ++ cfg.model_name), pyStrip raw) :: cache) query =
      (some (pyStrip raw),
        (md5hex (query ++ "_" ++ cfg.model_name), pyStrip raw) :: cache, 0) := by
    unfold generate_hypothetical_document
    rw [if_neg hcond, if_pos hcache]
    simp [List.lookup]
  rw [h1]
  rw [h2]
  exact ⟨rfl, rfl, rfl, rfl⟩

/-- Claim C9, witness: the cache-correctness theorem at a concrete
configuration, provider and query. -/
theorem claim_C9_witness :
    (generate_hypothetical_document {} true id
        (fun _ => some "Revenue grew.") [] "q").2.2 = 1 ∧
    (generate_hypothetical_document {} true id (fun _ => some "Revenue grew.")
        (generate_hypothetical_document {} true id
          (fun _ => some "Revenue grew.") [] "q").2.1 "q").2.2 = 0 ∧
    (generate_hypothetical_document {} true id
        (fun _ => some "Revenue grew.") [] "q").1 = some (pyStrip "Revenue grew.") ∧
    (generate_hypothetical_document {} true id (fun _ => some "Revenue grew.")
        (generate_hypothetical_document {} true id
          (fun _ => some "Revenue grew.") [] "q").2.1 "q").1 =
      (generate_hypothetical_document {} true id
        (fun _ => some "Revenue grew.") [] "q").1 :=
  claim_C9_hyde_cache {} true id (fun _ => some "Revenue grew.") [] "q"
    "Revenue grew." rfl rfl rfl rfl rfl rfl

/-- Claim C10: falsy filter values are treated as absent filters.  Searching
with `year_filter = 0` is identical to searching with no year filter, and
searching with `doc_type_filter = ""` is identical to searching with no
doc_type filter (the `if year_filter:` / `if doc_type_filter:` truthiness
checks skip the condition), so rows of every year / doc_type may be
returned. -/
theorem claim_C10_falsy_filters :
    (∀ (E : Type) (available : Bool) (dist : E → ℚ)
        (docTypeFilter : Option String) (limit : Nat) (rows : List (Row E)),
      search_documents available dist (some 0) docTypeFilter limit rows =
        search_documents available dist none docTypeFilter limit rows) ∧
    (∀ (E : Type) (available : Bool) (dist : E → ℚ) (yearFilter : Option Int)
        (limit : Nat) (rows : List (Row E)),
      search_documents available dist yearFilter (some "") limit rows =
        search_documents available dist yearFilter none limit rows) := by
  constructor
  · intro E avail dist df L rows
    have h : rowPassesFilters (E := E) (some 0) df = rowPassesFilters none df := by
      funext r
      simp [rowPassesFilters]
    simp only [search_documents, h]
  · intro E avail dist yf L rows
    have h : rowPassesFilters (E := E) yf (some "") = rowPassesFilters yf none := by
      funext r
      simp [rowPassesFilters]
    simp only [search_documents, h]

end RAG
